import Mathlib

/-!
Verification development for the asset-prefetch tool of the flag game
repository (src/tools/fetch-assets.mjs). The JavaScript source is shallowly
embedded: pure computations become Lean functions, the effectful download
loop becomes explicit state passing over a file-store value, and fallible
operations return Except. Field and function names follow the source.
-/

namespace FetchAssets

/-- Models JavaScript String.prototype.toUpperCase for the ASCII range
(the country codes manipulated by the tool are ASCII). -/
def jsToUpper (s : String) : String := String.mk (s.toList.map Char.toUpper)

/-- Models JavaScript String.prototype.toLowerCase for the ASCII range. -/
def jsToLower (s : String) : String := String.mk (s.toList.map Char.toLower)

/-- Models the regular expression test /^[A-Z]\x7b2\x7d$/.test s : exactly two
characters, each an uppercase ASCII letter. -/
def isTwoUpper (s : String) : Bool :=
  s.toList.length == 2 &&
    s.toList.all (fun c => decide ('A' ≤ c) && decide (c ≤ 'Z'))

/-- A raw country object as returned by the restcountries API, restricted to
the fields the tool reads. A missing cca2 or name.common is modelled as the
empty string, matching the coercions String(c.cca2 or-else "") and
(c.name?.common or-else "") in the source. -/
structure RawCountry where
  cca2 : String
  nameCommon : String
deriving DecidableEq, Repr

/-- The simplified country record the tool produces: exactly the fields
code and name, as built by the map step of fetchCountries. -/
structure Country where
  code : String
  name : String
deriving DecidableEq, Repr

/-- The map step of fetchCountries:
(c) => (\x7b code: String(c.cca2 or-else "").toUpperCase(), name: c.name?.common or-else "" \x7d). -/
def countryOfRaw (c : RawCountry) : Country :=
  { code := jsToUpper c.cca2, name := c.nameCommon }

/-- The filter predicate of fetchCountries:
(c) => /^[A-Z]\x7b2\x7d$/.test(c.code) and c.name truthy and c.code not "XK". -/
def validCountry (c : Country) : Bool :=
  isTwoUpper c.code && c.name != "" && c.code != "XK"

/-- Non-strict lexicographic order on character lists, the executable model
of string comparison used for the sort comparator. -/
def charListLe : List Char → List Char → Bool
  | [], _ => true
  | _ :: _, [] => false
  | a :: as, b :: bs => if a = b then charListLe as bs else decide (a < b)

theorem charListLe_total :
    ∀ as bs : List Char, charListLe as bs = true ∨ charListLe bs as = true
  | [], _ => Or.inl rfl
  | _ :: _, [] => Or.inr rfl
  | a :: as, b :: bs => by
    by_cases h : a = b
    · subst h
      simpa [charListLe] using charListLe_total as bs
    · rcases lt_or_gt_of_ne h with hlt | hgt
      · exact Or.inl (by simp [charListLe, h, hlt])
      · exact Or.inr (by simp [charListLe, Ne.symm h, hgt])

theorem charListLe_trans :
    ∀ as bs cs : List Char, charListLe as bs = true → charListLe bs cs = true →
      charListLe as cs = true
  | [], _, _ => fun _ _ => rfl
  | _ :: _, [], _ => fun h _ => by simp [charListLe] at h
  | _ :: _, _ :: _, [] => fun _ h2 => by simp [charListLe] at h2
  | a :: as, b :: bs, c :: cs => by
    intro h1 h2
    by_cases hab : a = b
    · subst hab
      by_cases hbc : a = c
      · subst hbc
        simp only [charListLe, if_pos rfl] at h1 h2 ⊢
        exact charListLe_trans as bs cs h1 h2
      · simpa [charListLe, hbc] using (by simpa [charListLe, hbc] using h2)
    · have hlt : a < b := by simpa [charListLe, hab] using h1
      by_cases hbc : b = c
      · subst hbc
        simp [charListLe, hab, hlt]
      · have hlt2 : b < c := by simpa [charListLe, hbc] using h2
        have hac : a < c := lt_trans hlt hlt2
        have hne : a ≠ c := ne_of_lt hac
        simp [charListLe, hne, hac]

/-- String comparison as used by the sort comparator. -/
def strLe (s t : String) : Bool := charListLe s.toList t.toList

/-- The comparator of the sort step, a.name.localeCompare(b.name), modelled
as ascending lexicographic order on names. -/
def nameLe (a b : Country) : Prop := strLe a.name b.name = true

instance : DecidableRel nameLe := fun a b =>
  inferInstanceAs (Decidable (strLe a.name b.name = true))

instance : IsTotal Country nameLe :=
  ⟨fun a b => charListLe_total a.name.toList b.name.toList⟩

instance : IsTrans Country nameLe :=
  ⟨fun a b c h h2 =>
    charListLe_trans a.name.toList b.name.toList c.name.toList h h2⟩

/-- The pure core of fetchCountries: map to the simplified shape, filter out
invalid records, and sort by name. JavaScript Array.prototype.sort is stable
(ES2019), which List.insertionSort with a non-strict comparator reproduces. -/
def simpleOfData (data : List RawCountry) : List Country :=
  List.insertionSort nameLe ((data.map countryOfRaw).filter validCountry)

/-- The HTTP response for the country-list fetch, restricted to what
fetchCountries inspects: ok flag, status, and the decoded JSON body. -/
structure CountriesResponse where
  ok : Bool
  status : Nat
  data : List RawCountry

/-- fetchCountries: throws when the response is not ok, otherwise returns the
simplified, filtered, sorted list. -/
def fetchCountries (res : CountriesResponse) : Except String (List Country) :=
  if !res.ok then
    Except.error ("Failed to fetch countries: " ++ toString res.status)
  else
    Except.ok (simpleOfData res.data)

/-- saveCountriesJson persists the given items verbatim (as pretty-printed
JSON) at the fixed countries.json path; modelled as the pair of the
destination path and the items written. -/
def saveCountriesJson (items : List Country) : String × List Country :=
  ("assets/countries.json", items)

/-- An HTTP response as inspected by download: ok flag, response type
(the string "opaque" marks an opaque cross-origin response), and body bytes. -/
structure DLResponse where
  ok : Bool
  rtype : String
  body : List Nat
deriving DecidableEq, Repr

/-- download(url, destPath): throws unless the response is ok or opaque;
otherwise yields the body bytes that are written to destPath. -/
def download (res : DLResponse) : Except String (List Nat) :=
  if !res.ok && res.rtype != "opaque" then Except.error ("Failed")
  else Except.ok res.body

def FLAGCDN_BASE : String := "https://flagcdn.com"

def FLAGSAPI_BASE : String := "https://flagsapi.com"

/-- The fixed directory that downloaded flag files are written into. -/
def FLAGS_DIR : String := "assets/flags"

def pathJoin (dir file : String) : String := dir ++ "/" ++ file

/-- svgUrl(code): the flagcdn endpoint keyed by the lowercase code. -/
def svgUrl (code : String) : String :=
  FLAGCDN_BASE ++ "/" ++ jsToLower code ++ ".svg"

/-- pngUrl(code, size = 512, style = flat): the flagsapi endpoint keyed by
the code with style and size path parameters. -/
def pngUrl (code : String) (size : Nat) (style : String) : String :=
  FLAGSAPI_BASE ++ "/" ++ code ++ "/" ++ style ++ "/" ++ toString size ++ ".png"

/-- The local file store: an association list from path to contents, newest
entry first, so that prepending models writeFile overwriting. -/
def Files : Type := List (String × List Nat)

/-- fileExists(p): whether a file is present at path p. -/
def fileExists (fs : Files) (p : String) : Bool :=
  (List.lookup p fs).isSome

/-- writeFile(p, buf). -/
def writeFile (fs : Files) (p : String) (b : List Nat) : Files :=
  (p, b) :: fs

/-- The state threaded through the downloadFlags loop: the file store, the
ok and fail counters, and the list of URLs for which a download was actually
attempted (in order). -/
structure DLState where
  files : Files
  ok : Nat
  fail : Nat
  attempts : List String

/-- One guarded download inside the loop body of downloadFlags: skip when the
destination file exists; otherwise attempt the download, writing the body and
bumping ok on success, bumping fail on error (the error is logged, the loop
continues). The network is an oracle from URL to response. -/
def tryDownload (net : String → DLResponse) (st : DLState) (u out : String) :
    DLState :=
  if fileExists st.files out then st
  else
    let st1 : DLState := { st with attempts := st.attempts ++ [u] }
    match download (net u) with
    | Except.ok b =>
        { st1 with files := writeFile st1.files out b, ok := st1.ok + 1 }
    | Except.error _ => { st1 with fail := st1.fail + 1 }

/-- The body of the for-loop of downloadFlags for one code. -/
def processCode (net : String → DLResponse) (dlSvg dlPng : Bool)
    (st : DLState) (code : String) : DLState :=
  let lc := jsToLower code
  let st1 :=
    if dlSvg then
      tryDownload net st (svgUrl code) (pathJoin FLAGS_DIR (lc ++ ".svg"))
    else st
  if dlPng then
    tryDownload net st1 (pngUrl code 512 "flat") (pathJoin FLAGS_DIR (lc ++ ".png"))
  else st1

/-- The options record built by parseArgs. The limit is an Int because
Number(...) in the source can yield a negative value. -/
structure Opts where
  svg : Bool
  png : Bool
  json : Bool
  both : Bool
  limit : Int
  noFlags : Bool
deriving DecidableEq, Repr

/-- list = limit > 0 ? codes.slice(0, limit) : codes. -/
def limitedCodes (codes : List String) (limit : Int) : List String :=
  if limit > 0 then codes.take limit.toNat else codes

/-- The loop of downloadFlags over an already-limited list of codes,
starting from a given state. -/
def downloadFlagsFrom (net : String → DLResponse) (o : Opts) (st : DLState)
    (codes : List String) : DLState :=
  codes.foldl (processCode net (o.svg || o.both) (o.png || o.both)) st

/-- downloadFlags(codes, opts) run against a network oracle and an initial
file store: caps the list by the limit, then processes each code in order
with zeroed counters. -/
def downloadFlags (net : String → DLResponse) (codes : List String)
    (o : Opts) (fs : Files) : DLState :=
  downloadFlagsFrom net o { files := fs, ok := 0, fail := 0, attempts := [] }
    (limitedCodes codes o.limit)

/-- toBool of parseArgs: null means the bare flag was given (true); the
strings false, 0 and no (case-insensitively) are false; any other string is
coerced with Boolean, which is false exactly on the empty string. -/
def jsToBool : Option String → Bool
  | none => true
  | some x =>
    let s := jsToLower x
    if s == "false" || s == "0" || s == "no" then false
    else x != ""

/-- Reads a nonempty all-digit character list as a number. -/
def digitsToNat (cs : List Char) : Option Nat :=
  if cs.isEmpty then none
  else if cs.all Char.isDigit then
    some (cs.foldl (fun n c => n * 10 + (c.toNat - 48)) 0)
  else none

/-- Models Number(s) followed by the or-else-0 in the source for integer
literal strings: a NaN result (non-numeric input) and the empty string both
give 0. -/
def jsNumberOrZero (s : String) : Int :=
  match s.toList with
  | '-' :: rest =>
    match digitsToNat rest with
    | some n => -(n : Int)
    | none => 0
  | cs =>
    match digitsToNat cs with
    | some n => (n : Int)
    | none => 0

/-- The split step at the top of the argument loop: when the argument
contains an equals sign, a.split yields the key before the first equals sign
and the value between the first and the second, and the branch tests then
compare against the key; otherwise the value stays null. -/
def splitEqArg (arg : String) : String × Option String :=
  let cs := arg.toList
  if cs.contains '=' then
    let k := cs.takeWhile (fun c => c != '=')
    let rest := (cs.dropWhile (fun c => c != '=')).drop 1
    let v := rest.takeWhile (fun c => c != '=')
    (String.mk k, some (String.mk v))
  else (arg, none)

/-- The argument loop of parseArgs. The case of a bare limit flag consumes
the following argument, as args[++i] does. -/
def parseArgsGo : Opts → List String → Opts
  | o, [] => o
  | o, arg :: rest =>
    let p := splitEqArg arg
    let a := p.1
    let val := p.2
    if a == "--svg" then parseArgsGo { o with svg := jsToBool val } rest
    else if a == "--png" then parseArgsGo { o with png := jsToBool val } rest
    else if a == "--both" then parseArgsGo { o with both := jsToBool val } rest
    else if a == "--no-flags" then
      parseArgsGo
        { o with noFlags := true, svg := false, png := false, both := false }
        rest
    else if a == "--only=json" then
      parseArgsGo
        { o with json := true, noFlags := true,
                 svg := false, png := false, both := false }
        rest
    else if a == "--no-json" then parseArgsGo { o with json := false } rest
    else if a == "--json" then parseArgsGo { o with json := jsToBool val } rest
    else if a == "--limit" then
      match val with
      | some v => parseArgsGo { o with limit := jsNumberOrZero v } rest
      | none =>
        match rest with
        | [] => parseArgsGo { o with limit := 0 } []
        | v :: rest2 =>
          parseArgsGo
            { o with limit := if v == "" then 0 else jsNumberOrZero v } rest2
    else parseArgsGo o rest

/-- The option defaults at the top of parseArgs. -/
def defaultOpts : Opts :=
  { svg := false, png := false, json := true, both := false,
    limit := 0, noFlags := false }

/-- parseArgs: run the loop from the defaults, then default to svg only when
no flag-selection option was given. -/
def parseArgs (args : List String) : Opts :=
  let o := parseArgsGo defaultOpts args
  if !o.noFlags && !o.svg && !o.png && !o.both then { o with svg := true }
  else o

/-- The guard in main deciding whether downloadFlags is called at all. -/
def mainDownloadsFlags (o : Opts) : Bool :=
  !o.noFlags && (o.svg || o.png || o.both)

/-- Membership in the fetchCountries output is membership in the filtered
map of the input. -/
theorem mem_simpleOfData {data : List RawCountry} {c : Country} :
    c ∈ simpleOfData data ↔ c ∈ (data.map countryOfRaw).filter validCountry :=
  List.mem_insertionSort nameLe

end FetchAssets

namespace FetchAssets

/-- C1: every record in the output of fetchCountries has a code matching the
uppercase two-letter alphabetic pattern, a non-empty name, and a code
different from the banned code XK; and every input entry whose simplified
record fails that predicate (lacking a two-letter code or a display name, or
carrying the banned code) is excluded from the output. -/
theorem fetchCountries_filters_invalid (data : List RawCountry) :
    (∀ c ∈ simpleOfData data,
      isTwoUpper c.code = true ∧ c.name ≠ "" ∧ c.code ≠ "XK") ∧
    (∀ r ∈ data, validCountry (countryOfRaw r) = false →
      countryOfRaw r ∉ simpleOfData data) := by
  constructor
  · intro c hc
    have hv : validCountry c = true :=
      List.of_mem_filter (mem_simpleOfData.mp hc)
    simpa [validCountry, Bool.and_eq_true, bne_iff_ne, and_assoc] using hv
  · intro r _ hbad hmem
    have hv : validCountry (countryOfRaw r) = true :=
      List.of_mem_filter (mem_simpleOfData.mp hmem)
    rw [hbad] at hv
    exact Bool.false_ne_true hv

/-- Closed instance of the C1 theorem at a concrete input list. -/
theorem fetchCountries_filters_invalid_witness :
    isTwoUpper (Country.code ⟨"US", "United States"⟩) = true ∧
    (Country.name ⟨"US", "United States"⟩) ≠ "" ∧
    (Country.code ⟨"US", "United States"⟩) ≠ "XK" :=
  (fetchCountries_filters_invalid [⟨"US", "United States"⟩]).1
    ⟨"US", "United States"⟩ (by decide)

/-- C2: on the three sample records with codes AA (lacking a display name,
hence invalid), US with name United States, and FR with name France, the
filter-and-reshape step of fetchCountries returns exactly the FR record then
the US record: AA is filtered out and the rest are sorted by name. -/
theorem fetchCountries_three_sample :
    simpleOfData [⟨"AA", ""⟩, ⟨"US", "United States"⟩, ⟨"FR", "France"⟩] =
      [⟨"FR", "France"⟩, ⟨"US", "United States"⟩] := by decide

/-- C3: the list produced by fetchCountries is sorted ascending by name,
saveCountriesJson persists exactly that list at the countries.json path, and
every output record is exactly the code-and-name projection of some input
record. -/
theorem fetchCountries_sorted_shape (data : List RawCountry) :
    (simpleOfData data).Sorted nameLe ∧
    saveCountriesJson (simpleOfData data) =
      ("assets/countries.json", simpleOfData data) ∧
    ∀ c ∈ simpleOfData data,
      ∃ r ∈ data, c = ⟨jsToUpper r.cca2, r.nameCommon⟩ := by
  refine ⟨List.sorted_insertionSort nameLe _, rfl, ?_⟩
  intro c hc
  have hmem : c ∈ data.map countryOfRaw :=
    (List.mem_filter.mp (mem_simpleOfData.mp hc)).1
  rcases List.mem_map.mp hmem with ⟨r, hr, hrc⟩
  exact ⟨r, hr, hrc.symm⟩

/-- Closed instance of the C3 theorem at a concrete input list. -/
theorem fetchCountries_sorted_shape_witness :
    ∃ r ∈ [(⟨"us", "United States"⟩ : RawCountry)],
      (⟨"US", "United States"⟩ : Country) =
        ⟨jsToUpper r.cca2, r.nameCommon⟩ :=
  (fetchCountries_sorted_shape [⟨"us", "United States"⟩]).2.2
    ⟨"US", "United States"⟩ (by decide)

/-- C4 counterexample: fetchCountries does not deduplicate by code; on an
input with two valid records sharing the code US the output has two distinct
records with the same code. -/
theorem fetchCountries_dup_code_counterexample :
    ¬ ((simpleOfData [⟨"US", "Aaa"⟩, ⟨"US", "Bbb"⟩]).Pairwise
        (fun a b => a.code ≠ b.code)) := by decide

/-- C4 amended: when the uppercased codes of the input entries are pairwise
distinct (as they are for the remote API, which lists each country once),
no two records of the output share a code; duplicate input codes, however,
pass through to the output. -/
theorem fetchCountries_unique_codes (data : List RawCountry)
    (h : (data.map (fun r => jsToUpper r.cca2)).Pairwise
          (fun a b => a ≠ b)) :
    (simpleOfData data).Pairwise (fun a b => a.code ≠ b.code) := by
  have hmap : (data.map countryOfRaw).Pairwise
      (fun a b => a.code ≠ b.code) := by
    rw [List.pairwise_map]
    rw [List.pairwise_map] at h
    exact h
  have hfil : ((data.map countryOfRaw).filter validCountry).Pairwise
      (fun a b => a.code ≠ b.code) :=
    hmap.sublist (List.filter_sublist _)
  exact ((List.perm_insertionSort nameLe _).pairwise_iff
    (fun hxy => fun he => hxy he.symm)).mpr hfil

/-- Closed instance of the amended C4 theorem at a concrete input list. -/
theorem fetchCountries_unique_codes_witness :
    (simpleOfData [⟨"US", "United States"⟩, ⟨"FR", "France"⟩]).Pairwise
      (fun a b => a.code ≠ b.code) :=
  fetchCountries_unique_codes [⟨"US", "United States"⟩, ⟨"FR", "France"⟩]
    (by decide)

/-- C5: download throws exactly when the response is neither ok nor opaque;
an opaque response is accepted and its body returned for writing to the
destination path. -/
theorem download_error_iff (res : DLResponse) :
    ((∃ e, download res = Except.error e) ↔
      (res.ok = false ∧ res.rtype ≠ "opaque")) ∧
    (res.rtype = "opaque" → download res = Except.ok res.body) := by
  constructor
  · constructor
    · rintro ⟨e, he⟩
      by_cases h1 : res.ok
      · simp [download, h1] at he
      · by_cases h2 : res.rtype = "opaque"
        · simp [download, h2] at he
        · exact ⟨by simpa using h1, h2⟩
    · rintro ⟨h1, h2⟩
      exact ⟨"Failed", by simp [download, h1, h2]⟩
  · intro h
    simp [download, h]

/-- Closed instance of the C5 theorem at a concrete opaque response. -/
theorem download_error_iff_witness :
    DLResponse.rtype ⟨false, "opaque", [7]⟩ = "opaque" ∧
    download ⟨false, "opaque", [7]⟩ = Except.ok [7] :=
  ⟨rfl, (download_error_iff ⟨false, "opaque", [7]⟩).2 rfl⟩

/-- A file written by tryDownload is at the given destination path: any path
found in the resulting store was already present or is that destination. -/
theorem tryDownload_files_lookup (net : String → DLResponse) (st : DLState)
    (u out p : String) (b : List Nat)
    (h : List.lookup p (tryDownload net st u out).files = some b) :
    List.lookup p st.files = some b ∨ p = out := by
  unfold tryDownload at h
  by_cases hex : fileExists st.files out
  · rw [if_pos hex] at h
    exact Or.inl h
  · rw [if_neg hex] at h
    cases hdl : download (net u) with
    | ok bb =>
        rw [hdl] at h
        by_cases hpo : p = out
        · exact Or.inr hpo
        · refine Or.inl ?_
          have hbeq : (p == out) = false := beq_eq_false_iff_ne.mpr hpo
          simpa [writeFile, List.lookup, hbeq] using h
    | error e =>
        rw [hdl] at h
        exact Or.inl h

/-- tryDownload never removes or changes an existing file entry. -/
theorem tryDownload_preserves_lookup (net : String → DLResponse)
    (st : DLState) (u out p : String) (b : List Nat)
    (h : List.lookup p st.files = some b) :
    List.lookup p (tryDownload net st u out).files = some b := by
  unfold tryDownload
  by_cases hex : fileExists st.files out
  · rw [if_pos hex]
    exact h
  · rw [if_neg hex]
    cases hdl : download (net u) with
    | ok bb =>
        have hpo : p ≠ out := by
          intro he
          rw [he] at h
          simp [fileExists, h] at hex
        have hbeq : (p == out) = false := beq_eq_false_iff_ne.mpr hpo
        simpa [writeFile, List.lookup, hbeq] using h
    | error e => exact h

/-- processCode never removes or changes an existing file entry. -/
theorem processCode_preserves_lookup (net : String → DLResponse)
    (dlSvg dlPng : Bool) (st : DLState) (code p : String) (b : List Nat)
    (h : List.lookup p st.files = some b) :
    List.lookup p (processCode net dlSvg dlPng st code).files = some b := by
  unfold processCode
  cases dlSvg <;> cases dlPng <;>
    simp only [Bool.false_eq_true, if_true, if_false] <;>
    first
      | exact h
      | exact tryDownload_preserves_lookup _ _ _ _ _ _ h
      | exact tryDownload_preserves_lookup _ _ _ _ _ _
          (tryDownload_preserves_lookup _ _ _ _ _ _ h)

/-- The downloadFlags loop never removes or changes an existing file
entry. -/
theorem downloadFlagsFrom_preserves_lookup (net : String → DLResponse)
    (o : Opts) (codes : List String) :
    ∀ (st : DLState) (p : String) (b : List Nat),
      List.lookup p st.files = some b →
      List.lookup p (downloadFlagsFrom net o st codes).files = some b := by
  induction codes with
  | nil => exact fun st p b h => h
  | cons c cs ih =>
      intro st p b h
      rw [downloadFlagsFrom, List.foldl_cons]
      exact ih _ p b (processCode_preserves_lookup _ _ _ _ _ _ _ h)

/-- C6: a failed flag download is counted once in the fail counter and the
loop moves on to the remaining codes from an otherwise unchanged state (no
abort, no retry); and a non-ok country-list response makes fetchCountries
throw. -/
theorem flag_failure_does_not_abort (net : String → DLResponse) (o : Opts)
    (st : DLState) (code : String) (rest : List String)
    (hsvg : o.svg = true) (hpng : o.png = false) (hboth : o.both = false)
    (hex : fileExists st.files
      (pathJoin FLAGS_DIR (jsToLower code ++ ".svg")) = false)
    (hnok : (net (svgUrl code)).ok = false)
    (hntype : (net (svgUrl code)).rtype ≠ "opaque") :
    (downloadFlagsFrom net o st (code :: rest) =
      downloadFlagsFrom net o
        { st with fail := st.fail + 1,
                  attempts := st.attempts ++ [svgUrl code] }
        rest) ∧
    (∀ res : CountriesResponse, res.ok = false →
      ∃ e, fetchCountries res = Except.error e) := by
  constructor
  · rw [downloadFlagsFrom, List.foldl_cons, downloadFlagsFrom]
    congr 1
    have hdl : download (net (svgUrl code)) = Except.error ("Failed") := by
      simp [download, hnok, hntype]
    simp [processCode, tryDownload, hsvg, hpng, hboth, hex, hdl]
  · intro res h
    exact ⟨"Failed to fetch countries: " ++ toString res.status,
      by simp [fetchCountries, h]⟩

/-- Closed instance of the C6 theorem: a network that always fails, one
pending code followed by one more. -/
theorem flag_failure_does_not_abort_witness :
    (downloadFlagsFrom (fun _ => ⟨false, "basic", []⟩)
        ⟨true, false, true, false, 0, false⟩ ⟨[], 0, 0, []⟩ ["US", "FR"] =
      downloadFlagsFrom (fun _ => ⟨false, "basic", []⟩)
        ⟨true, false, true, false, 0, false⟩
        ⟨[], 0, 1, [svgUrl ("US")]⟩ ["FR"]) ∧
    (∀ res : CountriesResponse, res.ok = false →
      ∃ e, fetchCountries res = Except.error e) :=
  flag_failure_does_not_abort (fun _ => ⟨false, "basic", []⟩)
    ⟨true, false, true, false, 0, false⟩ ⟨[], 0, 0, []⟩ "US" ["FR"]
    rfl rfl rfl (by decide) rfl (by decide)

/-- Any path present in the store after processCode was already present or
is the svg or png destination of that code. -/
theorem processCode_files_lookup (net : String → DLResponse)
    (dlSvg dlPng : Bool) (st : DLState) (code p : String) (b : List Nat)
    (h : List.lookup p (processCode net dlSvg dlPng st code).files = some b) :
    List.lookup p st.files = some b ∨
    p = pathJoin FLAGS_DIR (jsToLower code ++ ".svg") ∨
    p = pathJoin FLAGS_DIR (jsToLower code ++ ".png") := by
  unfold processCode at h
  cases dlSvg <;> cases dlPng <;>
      simp only [Bool.false_eq_true, if_true, if_false] at h
  · exact Or.inl h
  · rcases tryDownload_files_lookup _ _ _ _ _ _ h with h1 | h1
    · exact Or.inl h1
    · exact Or.inr (Or.inr h1)
  · rcases tryDownload_files_lookup _ _ _ _ _ _ h with h1 | h1
    · exact Or.inl h1
    · exact Or.inr (Or.inl h1)
  · rcases tryDownload_files_lookup _ _ _ _ _ _ h with h1 | h1
    · rcases tryDownload_files_lookup _ _ _ _ _ _ h1 with h2 | h2
      · exact Or.inl h2
      · exact Or.inr (Or.inl h2)
    · exact Or.inr (Or.inr h1)

/-- C7: the vector URL is the flagcdn endpoint keyed by the lowercase code
with extension svg, the raster URL is the flagsapi endpoint keyed by the
code with flat style and size 512 and extension png, and any file the loop
body writes lands at the lowercase code plus matching extension inside the
fixed flags directory. -/
theorem flag_urls_and_filenames (net : String → DLResponse)
    (dlSvg dlPng : Bool) (st : DLState) (code : String) :
    svgUrl code = "https://flagcdn.com/" ++ jsToLower code ++ ".svg" ∧
    pngUrl code 512 "flat" =
      "https://flagsapi.com/" ++ code ++ "/flat/512.png" ∧
    ∀ (p : String) (b : List Nat),
      List.lookup p (processCode net dlSvg dlPng st code).files = some b →
      List.lookup p st.files = some b ∨
      p = pathJoin FLAGS_DIR (jsToLower code ++ ".svg") ∨
      p = pathJoin FLAGS_DIR (jsToLower code ++ ".png") := by
  refine ⟨rfl, ?_, ?_⟩
  · apply String.ext
    simp only [pngUrl, FLAGSAPI_BASE, String.data_append, List.append_assoc]
    rfl
  · intro p b h
    exact processCode_files_lookup net dlSvg dlPng st code p b h

/-- Closed instance of the C7 theorem: a fresh store, one svg download of
the code US. -/
theorem flag_urls_and_filenames_witness :
    List.lookup ("assets/flags/us.svg") (DLState.files ⟨[], 0, 0, []⟩) =
        some [3] ∨
    "assets/flags/us.svg" = pathJoin FLAGS_DIR (jsToLower ("US") ++ ".svg") ∨
    "assets/flags/us.svg" = pathJoin FLAGS_DIR (jsToLower ("US") ++ ".png") :=
  (flag_urls_and_filenames (fun _ => ⟨true, "basic", [3]⟩) true false
      ⟨[], 0, 0, []⟩ ("US")).2.2 ("assets/flags/us.svg") [3] (by decide)

/-- C8: a positive limit caps the run to the first limit codes (the run
equals an uncapped run on the take of the list), and a zero limit processes
every code of the list. -/
theorem downloadFlags_limit (net : String → DLResponse)
    (codes : List String) (o : Opts) (fs : Files) :
    (0 < o.limit →
      downloadFlags net codes o fs =
        downloadFlags net (codes.take o.limit.toNat)
          { o with limit := 0 } fs) ∧
    (o.limit = 0 →
      downloadFlags net codes o fs =
        downloadFlagsFrom net o
          { files := fs, ok := 0, fail := 0, attempts := [] } codes) := by
  constructor
  · intro h
    unfold downloadFlags limitedCodes
    rw [if_pos h, if_neg (by simp)]
    rfl
  · intro h
    unfold downloadFlags limitedCodes
    rw [h, if_neg (by norm_num)]

/-- Closed instance of the C8 theorem: limit 2 over three codes. -/
theorem downloadFlags_limit_witness :
    downloadFlags (fun _ => ⟨true, "basic", []⟩) ["US", "FR", "DE"]
        ⟨true, false, true, false, 2, false⟩ [] =
      downloadFlags (fun _ => ⟨true, "basic", []⟩) ["US", "FR"]
        ⟨true, false, true, false, 0, false⟩ [] :=
  (downloadFlags_limit (fun _ => ⟨true, "basic", []⟩) ["US", "FR", "DE"]
      ⟨true, false, true, false, 2, false⟩ []).1 (by decide)

/-- C9: a download guarded by an existing destination file is skipped with
the state untouched, and re-running the whole loop never removes or changes
an existing file entry: only absent files can be written. -/
theorem rerun_skips_existing (net : String → DLResponse) (o : Opts)
    (codes : List String) (fs : Files) :
    (∀ (st : DLState) (u out : String),
      fileExists st.files out = true → tryDownload net st u out = st) ∧
    (∀ (p : String) (b : List Nat), List.lookup p fs = some b →
      List.lookup p (downloadFlags net codes o fs).files = some b) := by
  constructor
  · intro st u out h
    simp [tryDownload, h]
  · intro p b h
    exact downloadFlagsFrom_preserves_lookup net o
      (limitedCodes codes o.limit)
      { files := fs, ok := 0, fail := 0, attempts := [] } p b h

/-- Closed instance of the C9 theorem: the us.svg file already exists and
keeps its contents across a run that would otherwise overwrite it. -/
theorem rerun_skips_existing_witness :
    List.lookup ("assets/flags/us.svg")
        (downloadFlags (fun _ => ⟨true, "basic", [2]⟩) ["US"]
          ⟨true, false, true, false, 0, false⟩
          [("assets/flags/us.svg", [1])]).files = some [1] :=
  (rerun_skips_existing (fun _ => ⟨true, "basic", [2]⟩)
      ⟨true, false, true, false, 0, false⟩ ["US"]
      [("assets/flags/us.svg", [1])]).2 ("assets/flags/us.svg") [1]
      (by decide)

/-- C10: parseArgs does default to svg with json enabled when no selection
flag is given, and the no-flags flag disables all downloads; but the
only-json spelling is dead code: an argument containing an equals sign is
split into key and value before the branch comparisons, so the comparison
against the full only=json spelling can never match. With that argument the
options keep their defaults, svg defaults to true, and main does download
flags, contrary to the claim. -/
theorem parseArgs_only_json_bug :
    ((parseArgs []).svg = true ∧ (parseArgs []).json = true) ∧
    ((parseArgs ["--no-flags"]).svg = false ∧
      (parseArgs ["--no-flags"]).png = false ∧
      (parseArgs ["--no-flags"]).both = false ∧
      mainDownloadsFlags (parseArgs ["--no-flags"]) = false) ∧
    ((parseArgs ["--only=json"]).svg = true ∧
      (parseArgs ["--only=json"]).noFlags = false ∧
      mainDownloadsFlags (parseArgs ["--only=json"]) = true) := by decide

end FetchAssets
